import Mathlib

/-!
Shallow embedding of `src/version_checker.py`.

The script checks installed pip packages against PyPI and optionally
upgrades them.  Pure fragments (the two module-level regexes, the
PEP-440 version comparison done by `packaging.version.Version`, string
scanning) are translated to executable Lean functions.  Effectful
fragments (subprocess calls, the HTTP GET, `open`, `print`) are
modelled by an explicit environment `Env` of oracles together with an
effect trace `List Effect`; fallible code returns `Except PyErr`.
-/

/-! ### Python string helpers -/

/-- ASCII whitespace stripped by Python's `str.strip()` (the Unicode
space characters are irrelevant for the inputs modelled here). -/
def isPySpace (c : Char) : Bool :=
  c == ' ' || c == '\t' || c == '\n' || c == '\r' || c == '\x0b' || c == '\x0c'

/-- Model of Python `str.strip()` on a character list. -/
def pyStrip (l : List Char) : List Char :=
  ((l.dropWhile isPySpace).reverse.dropWhile isPySpace).reverse

/-- Character class `[A-Za-z0-9._-]` of the two module-level regexes. -/
def isClassChar (c : Char) : Bool :=
  c.isAlphanum || c == '.' || c == '_' || c == '-'

/-! ### `_VALID_PACKAGE_NAME = ^[A-Za-z0-9]([A-Za-z0-9._-]*[A-Za-z0-9])?$` -/

/-- The optional tail `[A-Za-z0-9._-]*[A-Za-z0-9]` anchored at `$`:
every character is in the class and the last one is alphanumeric. -/
def nameChainOk : List Char → Bool
  | [] => false
  | [c] => c.isAlphanum
  | c :: rest => isClassChar c && nameChainOk rest

/-- Whole-string match of the package-name pattern (without the `$`
trailing-newline allowance). -/
def nameCore : List Char → Bool
  | [] => false
  | [c] => c.isAlphanum
  | c :: rest => c.isAlphanum && nameChainOk rest

/-- `_VALID_PACKAGE_NAME.match(s)` as a Boolean.  Python's `$` also
matches just before one trailing newline, hence the second disjunct. -/
def validPackageName (s : String) : Bool :=
  nameCore s.toList ||
    (s.toList.getLast? == some '\n' && nameCore s.toList.dropLast)

/-! ### `_REQUIREMENT_LINE = ^([A-Za-z0-9]([A-Za-z0-9._-]*[A-Za-z0-9])?)(\[.*?\])?[^;]*`

Only `group(1)` is used by the program.  The trailing
`(\[.*?\])?[^;]*` always matches (possibly the empty string), so the
overall match succeeds exactly when the first character is
alphanumeric, and group 1 is the greedy name prefix. -/

/-- Drop the trailing run of non-alphanumeric characters: the
backtracking of `[A-Za-z0-9._-]*` before the final `[A-Za-z0-9]`. -/
def dropTrailNonAlnum (l : List Char) : List Char :=
  (l.reverse.dropWhile (fun c => !c.isAlphanum)).reverse

/-- `group(1)` of `_REQUIREMENT_LINE.match`, `none` when the regex
does not match (first character not alphanumeric). -/
def reqGroup1 : List Char → Option (List Char)
  | [] => none
  | c :: rest =>
    if c.isAlphanum then
      some (c :: dropTrailNonAlnum (rest.takeWhile isClassChar))
    else none

/-! ### PEP 440 versions (`packaging.version.Version`)

`Version(s)` matches `s` against packaging's `VERSION_PATTERN`
(anchored `^\s*  \s*$`, case-insensitive), raising `InvalidVersion` on
failure, and compares via the normalised key
`(epoch, release, pre, post, dev, local)`. -/

/-- One segment of a PEP 440 local version: an integer or a string. -/
inductive LocalSeg where
  | num (n : Nat)
  | str (s : String)
deriving DecidableEq, Repr

/-- Parsed and normalised PEP 440 version (packaging's `_Version`).
`localv` models the `local` component (`local` is a Lean keyword). -/
structure Version where
  epoch : Nat
  release : List Nat
  pre : Option (String × Nat)
  post : Option Nat
  dev : Option Nat
  localv : Option (List LocalSeg)
deriving DecidableEq, Repr

/-- Numeric value of a digit run, as Python `int()`. -/
def digitsVal (l : List Char) : Nat :=
  l.foldl (fun a c => a * 10 + (c.toNat - '0'.toNat)) 0

/-- Separator class `[-_\.]` of `VERSION_PATTERN`. -/
def isSep (c : Char) : Bool := c == '-' || c == '_' || c == '.'

/-- Lower-case letter or digit, the `[a-z0-9]` class after the input
has been lower-cased (modelling `re.IGNORECASE`). -/
def isAlnumLower (c : Char) : Bool := c.isDigit || c.isLower

/-- `(?:(?P<epoch>[0-9]+)!)?`: digits followed by `!`, else epoch 0. -/
def parseEpoch (l : List Char) : Nat × List Char :=
  match l.dropWhile Char.isDigit, l.takeWhile Char.isDigit with
  | '!' :: rest, d :: ds => (digitsVal (d :: ds), rest)
  | _, _ => (0, l)

/-- The `(?:\.[0-9]+)*` repetitions of the release segment (fuel is
the length of the remaining input). -/
def parseRelMore : Nat → List Char → List Nat × List Char
  | 0, l => ([], l)
  | fuel + 1, l =>
    match l with
    | '.' :: rest =>
      let ds := rest.takeWhile Char.isDigit
      if ds.isEmpty then ([], l)
      else
        let (more, r) := parseRelMore fuel (rest.dropWhile Char.isDigit)
        (digitsVal ds :: more, r)
    | _ => ([], l)

/-- `(?P<release>[0-9]+(?:\.[0-9]+)*)`; fails without a leading digit. -/
def parseRelease (l : List Char) : Option (List Nat × List Char) :=
  let ds := l.takeWhile Char.isDigit
  if ds.isEmpty then none
  else
    let (more, rest) := parseRelMore l.length (l.dropWhile Char.isDigit)
    some (digitsVal ds :: more, rest)

/-- Match a literal word, returning the rest of the input. -/
def matchLit : List Char → List Char → Option (List Char)
  | [], rest => some rest
  | c :: cs, d :: rest => if c == d then matchLit cs rest else none
  | _ :: _, [] => none

/-- Candidates of `[-_\.]?` in backtracking priority order (consume
the separator first, then leave it). -/
def sepCands : List Char → List (List Char)
  | [] => [[]]
  | c :: rest => if isSep c then [rest, c :: rest] else [c :: rest]

/-- Candidates of `(?P<n>[0-9]+)?`.  Partial digit consumption can
never extend to a full match (nothing after a number group may start
with a digit), so the only candidates are the full run or absence. -/
def numCands (l : List Char) : List (Option Nat × List Char) :=
  let ds := l.takeWhile Char.isDigit
  if ds.isEmpty then [(none, l)]
  else [(some (digitsVal ds), l.dropWhile Char.isDigit), (none, l)]

/-- Candidates of `[-_\.]?(word alternation)[-_\.]?([0-9]+)?` in
backtracking priority order (`letters` is the alternation in regex
order, matched leftmost-first). -/
def groupLSNCands (letters : List (List Char)) (l : List Char) :
    List ((List Char × Option Nat) × List Char) :=
  (sepCands l).flatMap (fun r1 =>
    (letters.filterMap
        (fun w => (matchLit w r1).map (fun r2 => (w, r2)))).flatMap
      (fun p =>
        (sepCands p.2).flatMap (fun r3 =>
          (numCands r3).map (fun q => ((p.1, q.1), q.2)))))

/-- Pre-release letter alternation `alpha|a|beta|b|preview|pre|c|rc`. -/
def preLetters : List (List Char) :=
  [['a','l','p','h','a'], ['a'], ['b','e','t','a'], ['b'],
   ['p','r','e','v','i','e','w'], ['p','r','e'], ['c'], ['r','c']]

/-- Post-release letter alternation `post|rev|r`. -/
def postLetters : List (List Char) :=
  [['p','o','s','t'], ['r','e','v'], ['r']]

/-- `_parse_letter_version` normalisation of the pre-release letter:
`alpha` to `a`, `beta` to `b`, `c`, `pre` and `preview` to `rc`. -/
def normPreLetter (w : List Char) : String :=
  if w == ['a','l','p','h','a'] || w == ['a'] then "a"
  else if w == ['b','e','t','a'] || w == ['b'] then "b"
  else "rc"

/-- Candidates of the optional pre group, group absent last. -/
def preCands (l : List Char) :
    List (Option (List Char × Option Nat) × List Char) :=
  (groupLSNCands preLetters l).map (fun p => (some p.1, p.2)) ++ [(none, l)]

/-- Candidates of the optional post group:
`(?:-(?P<post_n1>[0-9]+))` first, then the lettered alternative, then
absence.  Both alternatives normalise to a bare number
(`_parse_letter_version`: the letter is always `post`). -/
def postCands (l : List Char) : List (Option Nat × List Char) :=
  (match l with
   | '-' :: rest =>
     let ds := rest.takeWhile Char.isDigit
     if ds.isEmpty then []
     else [(some (digitsVal ds), rest.dropWhile Char.isDigit)]
   | _ => []) ++
  (groupLSNCands postLetters l).map (fun p => (some (p.1.2.getD 0), p.2)) ++
  [(none, l)]

/-- Candidates of the optional dev group (`dev` letter, number
defaulting to 0). -/
def devCands (l : List Char) : List (Option Nat × List Char) :=
  (groupLSNCands [['d','e','v']] l).map (fun p => (some (p.1.2.getD 0), p.2))
    ++ [(none, l)]

/-- `_parse_local_version`: a segment of lower-case alphanumerics is
an integer when it is all digits, a string otherwise. -/
def toLocalSeg (seg : List Char) : LocalSeg :=
  if seg.all Char.isDigit then .num (digitsVal seg) else .str (String.mk seg)

/-- The `(?:[-_\.][a-z0-9]+)*` repetitions of the local version. -/
def parseLocalMore : Nat → List Char → List (List Char) × List Char
  | 0, l => ([], l)
  | fuel + 1, l =>
    match l with
    | c :: rest =>
      if isSep c then
        let seg := rest.takeWhile isAlnumLower
        if seg.isEmpty then ([], l)
        else
          let (more, r) := parseLocalMore fuel (rest.dropWhile isAlnumLower)
          (seg :: more, r)
      else ([], l)
    | [] => ([], [])

/-- Consume `(?:\+(?P<local>[a-z0-9]+(?:[-_\.][a-z0-9]+)*))?` and
require the end of the (already stripped) input. -/
def finishLocal (l : List Char) : Option (Option (List LocalSeg)) :=
  match l with
  | [] => some none
  | '+' :: rest =>
    let seg := rest.takeWhile isAlnumLower
    if seg.isEmpty then none
    else
      let (more, r) := parseLocalMore rest.length (rest.dropWhile isAlnumLower)
      if r.isEmpty then some (some ((seg :: more).map toLocalSeg)) else none
  | _ => none

/-- Try the dev-group candidates in priority order. -/
def searchDev (l : List Char) : Option (Option Nat × Option (List LocalSeg)) :=
  (devCands l).findSome? (fun p => (finishLocal p.2).map (fun lo => (p.1, lo)))

/-- Try the post-group candidates in priority order. -/
def searchPost (l : List Char) :
    Option (Option Nat × Option Nat × Option (List LocalSeg)) :=
  (postCands l).findSome? (fun p =>
    (searchDev p.2).map (fun q => (p.1, q.1, q.2)))

/-- Try the pre-group candidates in priority order, normalising the
letter and defaulting the number to 0 as `_parse_letter_version`. -/
def searchPre (l : List Char) :
    Option (Option (String × Nat) × Option Nat × Option Nat ×
            Option (List LocalSeg)) :=
  (preCands l).findSome? (fun p =>
    (searchPost p.2).map (fun q =>
      (p.1.map (fun w => (normPreLetter w.1, w.2.getD 0)), q.1, q.2.1, q.2.2)))

/-- Match `VERSION_PATTERN` against an already stripped, lower-cased
character list.  The leading `v?` is forced: everything after it
starts with a digit, so a leading `v` must be consumed. -/
def parseVersionChars (l0 : List Char) : Option Version :=
  let l1 := match l0 with | 'v' :: r => r | _ => l0
  let (ep, l2) := parseEpoch l1
  match parseRelease l2 with
  | none => none
  | some (rel, l3) =>
    (searchPre l3).map (fun q => ⟨ep, rel, q.1, q.2.1, q.2.2.1, q.2.2.2⟩)

/-- `packaging.version.Version(s)`: strip surrounding whitespace
(`^\s* .. \s*$`), lower-case (`re.IGNORECASE` over ASCII classes),
match; `none` models `InvalidVersion`. -/
def Version.parse (s : String) : Option Version :=
  parseVersionChars (pyStrip (s.toList.map Char.toLower))

/-! ### `Version` ordering (`packaging.version._cmpkey` and tuple `<`) -/

/-- Python tuple comparison on integer lists (a shorter tuple that is
a prefix of the other is smaller). -/
def cmpListNat : List Nat → List Nat → Ordering
  | [], [] => .eq
  | [], _ :: _ => .lt
  | _ :: _, [] => .gt
  | a :: as, b :: bs =>
    match compare a b with
    | .eq => cmpListNat as bs
    | o => o

/-- `_cmpkey` drops trailing zeroes of the release tuple. -/
def dropTrailZeros (l : List Nat) : List Nat :=
  (l.reverse.dropWhile (fun n => n == 0)).reverse

/-- Release component of the comparison key. -/
def cmpRelease (a b : List Nat) : Ordering :=
  cmpListNat (dropTrailZeros a) (dropTrailZeros b)

/-- Python code-point-lexicographic string comparison. -/
def cmpChars : List Char → List Char → Ordering
  | [], [] => .eq
  | [], _ :: _ => .lt
  | _ :: _, [] => .gt
  | a :: as, b :: bs =>
    match compare a b with
    | .eq => cmpChars as bs
    | o => o

/-- Pre-release key: `NegativeInfinity`, a `(letter, number)` tuple,
or `Infinity`. -/
inductive PreK where
  | negInf
  | val (letter : String) (n : Nat)
  | inf
deriving DecidableEq, Repr

/-- `_cmpkey`: versions without pre/post but with a dev segment sort
before everything (`NegativeInfinity`); versions without a pre segment
otherwise sort after any pre segment (`Infinity`). -/
def preKey (v : Version) : PreK :=
  match v.pre with
  | some p => .val p.1 p.2
  | none =>
    match v.post, v.dev with
    | none, some _ => .negInf
    | _, _ => .inf

/-- Ordering of pre-release keys. -/
def cmpPreK : PreK → PreK → Ordering
  | .negInf, .negInf => .eq
  | .negInf, _ => .lt
  | _, .negInf => .gt
  | .inf, .inf => .eq
  | .inf, .val _ _ => .gt
  | .val _ _, .inf => .lt
  | .val l1 n1, .val l2 n2 =>
    match cmpChars l1.toList l2.toList with
    | .eq => compare n1 n2
    | o => o

/-- Post key: absent is `NegativeInfinity`, otherwise the `("post", n)`
tuple, whose letter is constant. -/
def cmpPost : Option Nat → Option Nat → Ordering
  | none, none => .eq
  | none, some _ => .lt
  | some _, none => .gt
  | some a, some b => compare a b

/-- Dev key: absent is `Infinity`, otherwise the `("dev", n)` tuple. -/
def cmpDev : Option Nat → Option Nat → Ordering
  | none, none => .eq
  | none, some _ => .gt
  | some _, none => .lt
  | some a, some b => compare a b

/-- Local segments compare as `(i, "")` for integers and
`(NegativeInfinity, s)` for strings: every integer segment is greater
than every string segment. -/
def cmpLocalSeg : LocalSeg → LocalSeg → Ordering
  | .num a, .num b => compare a b
  | .num _, .str _ => .gt
  | .str _, .num _ => .lt
  | .str a, .str b => cmpChars a.toList b.toList

/-- Tuple comparison on local-segment lists. -/
def cmpSegList : List LocalSeg → List LocalSeg → Ordering
  | [], [] => .eq
  | [], _ :: _ => .lt
  | _ :: _, [] => .gt
  | a :: as, b :: bs =>
    match cmpLocalSeg a b with
    | .eq => cmpSegList as bs
    | o => o

/-- Local key: absent is `NegativeInfinity`. -/
def cmpLocal : Option (List LocalSeg) → Option (List LocalSeg) → Ordering
  | none, none => .eq
  | none, some _ => .lt
  | some _, none => .gt
  | some a, some b => cmpSegList a b

/-- Lexicographic comparison of the `_cmpkey` tuples
`(epoch, release, pre, post, dev, local)`. -/
def Version.cmp (a b : Version) : Ordering :=
  (compare a.epoch b.epoch).then
    ((cmpRelease a.release b.release).then
      ((cmpPreK (preKey a) (preKey b)).then
        ((cmpPost a.post b.post).then
          ((cmpDev a.dev b.dev).then (cmpLocal a.localv b.localv)))))

/-- `Version.__lt__`: strict comparison of the keys. -/
def Version.lt (a b : Version) : Bool :=
  Version.cmp a b == Ordering.lt

/-! ### Exceptions, JSON values, effects and the environment -/

/-- Python exceptions that can escape the modelled fragments:
`packaging.version.InvalidVersion`, `TypeError` (indexing a non-dict,
or `Version` applied to a non-string) and `KeyError`. -/
inductive PyErr where
  | invalidVersion
  | typeError
  | keyError
deriving DecidableEq, Repr

/-- JSON values as produced by `json.loads`. -/
inductive Json where
  | str (s : String)
  | num (n : Int)
  | boolean (b : Bool)
  | null
  | arr (elems : List Json)
  | obj (fields : List (String × Json))

/-- Dict lookup with the last binding winning, as a dict built by
`json.loads` from possibly duplicated keys. -/
def lookupLast (fields : List (String × Json)) (key : String) : Option Json :=
  fields.foldl (fun acc p => if p.1 = key then some p.2 else acc) none

/-- Python `data[key]`: `KeyError` when the key is missing,
`TypeError` when the value is not a dict (only `KeyError` is caught by
`get_latest_version`). -/
def Json.getItem : Json → String → Except PyErr Json
  | .obj fields, key =>
    match lookupLast fields key with
    | some v => .ok v
    | none => .error .keyError
  | _, _ => .error .typeError

/-- Outcome of `urllib.request.urlopen` + `response.read` +
`json.loads` for one URL: a network error or timeout (`URLError`), a
body that fails to parse (`JSONDecodeError`), or a JSON value.  Any
concrete body string maps deterministically to one of the last two, so
quantifying over this type covers all response bodies. -/
inductive HttpOutcome where
  | urlError
  | jsonDecodeError
  | json (j : Json)

/-- Observable side effects, in order of occurrence. -/
inductive Effect where
  | pipShow (package : String)
  | httpGet (url : String)
  | pipInstall (package : String)
  | print (msg : String)
deriving DecidableEq, Repr

/-- Oracles for the external world: `pip show` output lines (`none`
models `CalledProcessError`), the HTTP outcome per URL, the exit
status of `pip install --upgrade`, and file contents as lines (`none`
models `FileNotFoundError`). -/
structure Env where
  pipShow : String → Option (List String)
  httpGet : String → HttpOutcome
  pipInstallOk : String → Bool
  readFile : String → Option (List String)

/-! ### The program's functions -/

/-- Scan `pip show` output for the first line starting with
`Version:`; `line.split(":", 1)[1].strip()` is the stripped remainder
after the first 8 characters. -/
def scanVersion : List String → Option String
  | [] => none
  | line :: rest =>
    if line.toList.take 8 = "Version:".toList then
      some (String.mk (pyStrip (line.toList.drop 8)))
    else scanVersion rest

/-- Value component of `get_installed_version`. -/
def pipShowVersion (env : Env) (package : String) : Option String :=
  match env.pipShow package with
  | none => none
  | some lines => scanVersion lines

/-- `get_installed_version`: run `pip show`, scan for `Version:`;
`CalledProcessError` collapses to `None`. -/
def get_installed_version (env : Env) (package : String) :
    Option String × List Effect :=
  (pipShowVersion env package, [Effect.pipShow package])

/-- The query URL `f"https://pypi.org/pypi/{package}/json"`. -/
def pypiUrl (package : String) : String :=
  "https://pypi.org/pypi/" ++ package ++ "/json"

/-- `get_latest_version`: reject invalid names before any network
call; perform one GET; `URLError`, `JSONDecodeError` and `KeyError`
collapse to `None`, any other exception escapes. -/
def get_latest_version (env : Env) (package : String) :
    Except PyErr (Option Json) × List Effect :=
  if validPackageName package then
    ((match env.httpGet (pypiUrl package) with
      | .urlError => .ok none
      | .jsonDecodeError => .ok none
      | .json data =>
        match data.getItem "info" with
        | .error .keyError => .ok none
        | .error e => .error e
        | .ok info =>
          match info.getItem "version" with
          | .ok v => .ok (some v)
          | .error .keyError => .ok none
          | .error e => .error e),
     [Effect.httpGet (pypiUrl package)])
  else (.ok none, [])

/-- `update_package`: one `pip install --upgrade` invocation, success
iff the process exits zero. -/
def update_package (env : Env) (package : String) : Bool × List Effect :=
  (env.pipInstallOk package, [Effect.pipInstall package])

/-- The per-package Check Result dict built by `check_package`. -/
structure CheckResult where
  package : String
  installed : Option String
  latest : Option Json
  update_available : Bool
  updated : Bool

/-- `Version(s)`, raising `InvalidVersion` on parse failure. -/
def versionOrErr (s : String) : Except PyErr Version :=
  match Version.parse s with
  | some v => .ok v
  | none => .error .invalidVersion

/-- The comparator step `Version(installed) < Version(latest)`
(left operand constructed first). -/
def compareStep (installed latest : String) : Except PyErr Bool := do
  let vi ← versionOrErr installed
  let vl ← versionOrErr latest
  pure (Version.lt vi vl)

/-- `check_package`: look up the installed version (short-circuit when
absent), fetch the latest (short-circuit when unknown), compare, and
optionally upgrade.  A non-string `info.version` value reaches
`Version(latest)` and raises `TypeError` — after `Version(installed)`
is constructed. -/
def check_package (env : Env) (package : String) (do_update : Bool) :
    Except PyErr CheckResult × List Effect :=
  let t1 := (get_installed_version env package).2
  match (get_installed_version env package).1 with
  | none =>
    (.ok ⟨package, none, none, false, false⟩,
     t1 ++ [Effect.print ("  " ++ package ++ ": not installed")])
  | some installed =>
    let t2 := (get_latest_version env package).2
    match (get_latest_version env package).1 with
    | .error e => (.error e, t1 ++ t2)
    | .ok none =>
      (.ok ⟨package, some installed, none, false, false⟩,
       t1 ++ t2 ++
         [Effect.print ("  " ++ package ++ ": could not fetch latest version")])
    | .ok (some (Json.str latest)) =>
      match compareStep installed latest with
      | .error e => (.error e, t1 ++ t2)
      | .ok true =>
        let availPrint :=
          Effect.print ("  " ++ package ++ ": " ++ installed ++ " -> " ++
            latest ++ " (update available)")
        if do_update then
          let success := (update_package env package).1
          let t3 := (update_package env package).2
          let donePrint :=
            if success then
              Effect.print
                ("  " ++ package ++ ": updated successfully to " ++ latest)
            else Effect.print ("  " ++ package ++ ": update failed")
          (.ok ⟨package, some installed, some (Json.str latest), true, success⟩,
           t1 ++ t2 ++ [availPrint] ++ t3 ++ [donePrint])
        else
          (.ok ⟨package, some installed, some (Json.str latest), true, false⟩,
           t1 ++ t2 ++ [availPrint])
      | .ok false =>
        (.ok ⟨package, some installed, some (Json.str latest), false, false⟩,
         t1 ++ t2 ++
           [Effect.print ("  " ++ package ++ ": " ++ installed ++
             " (up to date)")])
    | .ok (some _j) =>
      match versionOrErr installed with
      | .error e => (.error e, t1 ++ t2)
      | .ok _ => (.error .typeError, t1 ++ t2)

/-- One iteration of the manifest loop: strip the line, skip it when
blank or starting with `#`, else extract `group(1)` of
`_REQUIREMENT_LINE` (no match: the line is skipped). -/
def lineExtract (line : String) : Option String :=
  match pyStrip line.toList with
  | [] => none
  | c :: cs =>
    if c = '#' then none
    else (reqGroup1 (c :: cs)).map String.mk

/-- The `packages` list accumulated by `check_requirements_file`. -/
def extractPackages (lines : List String) : List String :=
  lines.filterMap lineExtract

/-- The `for package in packages` loop: skip falsy (empty) names, run
`check_package`, propagate any escaping exception. -/
def runPackages (env : Env) (do_update : Bool) :
    List String → Except PyErr (List CheckResult) × List Effect
  | [] => (.ok [], [])
  | p :: ps =>
    if p.isEmpty then runPackages env do_update ps
    else
      match check_package env p do_update with
      | (.error e, t) => (.error e, t)
      | (.ok r, t) =>
        match runPackages env do_update ps with
        | (.error e, t') => (.error e, t ++ t')
        | (.ok rs, t') => (.ok (r :: rs), t ++ t')

/-- `check_requirements_file`: a missing file prints an error and
returns the empty list; otherwise extract the package names and check
each one. -/
def check_requirements_file (env : Env) (filepath : String)
    (do_update : Bool) : Except PyErr (List CheckResult) × List Effect :=
  match env.readFile filepath with
  | none =>
    (.ok [],
     [Effect.print
        ("Error: requirements file '" ++ filepath ++ "' not found.")])
  | some lines => runPackages env do_update (extractPackages lines)

/-! ### `main` -/

/-- Parsed CLI arguments.  `argparse` guarantees exactly one of
`package`/`requirements` is set, but `main` tests `args.package` by
truthiness, so the empty string routes to the requirements branch. -/
structure Args where
  package : Option String
  requirements : Option String
  update : Bool

/-- Python truthiness of an optional string. -/
def truthyStr : Option String → Bool
  | none => false
  | some s => !s.isEmpty

/-- `sum(1 for r in results if r["update_available"])`. -/
def updatesAvailable (results : List CheckResult) : Nat :=
  (results.map (fun r => if r.update_available then 1 else 0)).sum

/-- The dispatch on `args.package` truthiness; `open(None)` in
`check_requirements_file` would raise `TypeError`. -/
def mainDispatch (env : Env) (args : Args) :
    Except PyErr (List CheckResult) × List Effect :=
  if truthyStr args.package then
    match check_package env (args.package.getD "") args.update with
    | (.ok r, t) => (.ok [r], t)
    | (.error e, t) => (.error e, t)
  else
    match args.requirements with
    | some f => check_requirements_file env f args.update
    | none => (.error .typeError, [])

/-- `main` after argument parsing: header line, dispatch, summary.
Returns the results together with the printed `updates_available`
count. -/
def mainRun (env : Env) (args : Args) :
    Except PyErr (List CheckResult × Nat) × List Effect :=
  let header := [Effect.print "Checking for updates..."]
  match mainDispatch env args with
  | (.error e, t) => (.error e, header ++ t)
  | (.ok results, t) =>
    let n := updatesAvailable results
    let summary :=
      if n ≠ 0 then
        [Effect.print ("\n" ++ toString n ++ " update(s) available.")] ++
          (if !args.update then
            [Effect.print "Run with --update to apply updates."]
          else [])
      else [Effect.print "\nAll packages are up to date."]
    (.ok (results, n), header ++ t ++ summary)

/-! ### Helper predicates and sample environments -/

/-- The head of the list, when present, is outside `[A-Za-z0-9._-]`. -/
def headNotClass : List Char → Bool
  | [] => true
  | d :: _ => !isClassChar d

/-- The last character, when present, is alphanumeric. -/
def endsAlnum (l : List Char) : Bool :=
  match l.getLast? with
  | none => true
  | some d => d.isAlphanum

/-- Environment where every lookup succeeds. -/
def envSampleOk : Env where
  pipShow := fun _ => some ["Name: requests", "Version: 1.2.0"]
  httpGet := fun _ => .json (.obj [("info", .obj [("version", .str "1.3.0")])])
  pipInstallOk := fun _ => true
  readFile := fun _ => some ["requests>=1.0"]

/-- Environment where `pip show` fails and the manifest is missing. -/
def envNotInstalled : Env where
  pipShow := fun _ => none
  httpGet := fun _ => .urlError
  pipInstallOk := fun _ => false
  readFile := fun _ => none

/-- Environment with an installed package but a failing network. -/
def envNetFail : Env where
  pipShow := fun _ => some ["Version: 1.0"]
  httpGet := fun _ => .urlError
  pipInstallOk := fun _ => true
  readFile := fun _ => none

/-- Environment reporting an unparseable installed version. -/
def envBadVersion : Env where
  pipShow := fun _ => some ["Version: abc"]
  httpGet := fun _ => .json (.obj [("info", .obj [("version", .str "1.0")])])
  pipInstallOk := fun _ => true
  readFile := fun _ => none

/-! ### Helper lemmas -/

/-- The generator-sum of `main` counts the results with the flag set. -/
theorem updatesAvailable_eq (rs : List CheckResult) :
    updatesAvailable rs =
      (rs.filter (fun r => r.update_available)).length := by
  induction rs with
  | nil => rfl
  | cons r rs ih =>
    simp only [updatesAvailable, List.map_cons, List.sum_cons,
      List.filter_cons] at *
    cases hr : r.update_available <;> simp [hr, ih, Nat.add_comm]

/-- `takeWhile` of the class predicate stops exactly at the end of a
class-character block. -/
theorem takeWhile_class_append (name rest : List Char)
    (hname : ∀ d ∈ name, isClassChar d = true)
    (hrest : headNotClass rest = true) :
    (name ++ rest).takeWhile isClassChar = name := by
  induction name with
  | nil =>
    cases rest with
    | nil => rfl
    | cons d ds =>
      simp only [headNotClass, Bool.not_eq_true'] at hrest
      simp [List.takeWhile, hrest]
  | cons c cs ih =>
    have hc := hname c (by simp)
    simp only [List.cons_append, List.takeWhile_cons, hc, ih
      (fun d hd => hname d (by simp [hd])), if_true]

/-- Dropping trailing non-alphanumerics is the identity on a block
that is empty or ends alphanumerically. -/
theorem dropTrailNonAlnum_id (name : List Char) (h : endsAlnum name = true) :
    dropTrailNonAlnum name = name := by
  unfold dropTrailNonAlnum
  cases hr : name.reverse with
  | nil =>
    have : name = [] := by simpa using congrArg List.reverse hr
    simp [this]
  | cons d ds =>
    have hd : name.getLast? = some d := by
      rw [← List.head?_reverse, hr]; rfl
    have hda : d.isAlphanum = true := by
      unfold endsAlnum at h; rw [hd] at h; exact h
    rw [List.dropWhile_cons]
    simp only [hda, Bool.not_true, Bool.false_eq_true, if_false]
    rw [← hr, List.reverse_reverse]

/-! ### The claims -/

/-- C2: a package name failing `_VALID_PACKAGE_NAME` makes
`get_latest_version` return `None` without any network call (the
effect trace is empty). -/
theorem C2_invalid_name_no_network (env : Env) (package : String)
    (h : validPackageName package = false) :
    get_latest_version env package = (.ok none, []) := by
  simp [get_latest_version, h]

/-- Witness for C2 at the concrete name `-bad`. -/
theorem C2_invalid_name_no_network_witness :
    validPackageName "-bad" = false ∧
    get_latest_version envSampleOk "-bad" = (.ok none, []) :=
  ⟨by decide, C2_invalid_name_no_network envSampleOk "-bad" (by decide)⟩

/-- C6: a missing requirements file yields a printed error message and
the empty result list, with no exception. -/
theorem C6_missing_manifest (env : Env) (filepath : String) (du : Bool)
    (h : env.readFile filepath = none) :
    check_requirements_file env filepath du =
      (.ok [],
       [Effect.print
          ("Error: requirements file '" ++ filepath ++ "' not found.")]) := by
  unfold check_requirements_file
  rw [h]

/-- Witness for C6 at the concrete path `reqs.txt`. -/
theorem C6_missing_manifest_witness :
    check_requirements_file envNotInstalled "reqs.txt" true =
      (.ok [],
       [Effect.print "Error: requirements file 'reqs.txt' not found."]) :=
  C6_missing_manifest envNotInstalled "reqs.txt" true rfl

/-- C3: a package whose installed-version lookup returns absent makes
`check_package` return a not-installed result (installed, latest
absent; both flags false), and the trace contains no upgrade
invocation. -/
theorem C3_not_installed_short_circuit (env : Env) (package : String)
    (du : Bool) (h : (get_installed_version env package).1 = none) :
    check_package env package du =
      (.ok ⟨package, none, none, false, false⟩,
       [Effect.pipShow package,
        Effect.print ("  " ++ package ++ ": not installed")]) ∧
    ∀ e ∈ (check_package env package du).2, ∀ q, e ≠ Effect.pipInstall q := by
  have h1 : check_package env package du =
      (.ok ⟨package, none, none, false, false⟩,
       [Effect.pipShow package,
        Effect.print ("  " ++ package ++ ": not installed")]) := by
    unfold check_package
    rw [h]
    rfl
  refine ⟨h1, ?_⟩
  rw [h1]
  intro e he q
  simp only [List.mem_cons, List.not_mem_nil, or_false] at he
  rcases he with rfl | rfl <;> simp

/-- Witness for C3: an environment whose `pip show` fails. -/
theorem C3_not_installed_short_circuit_witness :
    check_package envNotInstalled "pkg" true =
      (.ok ⟨"pkg", none, none, false, false⟩,
       [Effect.pipShow "pkg", Effect.print "  pkg: not installed"]) :=
  (C3_not_installed_short_circuit envNotInstalled "pkg" true rfl).1

/-- C4: with a valid package name, every network error or timeout
(`URLError`), malformed body (`JSONDecodeError`) and missing
`info`/`version` key (`KeyError`) makes `get_latest_version` return
`None` — no exception escapes — after exactly one GET (no retry). -/
theorem C4_latest_failures_absorbed (env : Env) (package : String)
    (h : validPackageName package = true) :
    (env.httpGet (pypiUrl package) = .urlError →
      get_latest_version env package =
        (.ok none, [Effect.httpGet (pypiUrl package)])) ∧
    (env.httpGet (pypiUrl package) = .jsonDecodeError →
      get_latest_version env package =
        (.ok none, [Effect.httpGet (pypiUrl package)])) ∧
    (∀ fields, env.httpGet (pypiUrl package) = .json (.obj fields) →
      lookupLast fields "info" = none →
      get_latest_version env package =
        (.ok none, [Effect.httpGet (pypiUrl package)])) ∧
    (∀ fields ifields, env.httpGet (pypiUrl package) = .json (.obj fields) →
      lookupLast fields "info" = some (.obj ifields) →
      lookupLast ifields "version" = none →
      get_latest_version env package =
        (.ok none, [Effect.httpGet (pypiUrl package)])) := by
  refine ⟨?_, ?_, ?_, ?_⟩
  · intro hg
    unfold get_latest_version
    rw [if_pos h, hg]
  · intro hg
    unfold get_latest_version
    rw [if_pos h, hg]
  · intro fields hg hl
    unfold get_latest_version
    rw [if_pos h, hg]
    unfold Json.getItem
    dsimp only
    rw [hl]
  · intro fields ifields hg hl1 hl2
    unfold get_latest_version
    rw [if_pos h, hg]
    unfold Json.getItem
    dsimp only
    rw [hl1]
    dsimp only
    rw [hl2]

/-- Witness for C4: a network failure for `requests`. -/
theorem C4_latest_failures_absorbed_witness :
    get_latest_version envNetFail "requests" =
      (.ok none, [Effect.httpGet (pypiUrl "requests")]) :=
  (C4_latest_failures_absorbed envNetFail "requests" (by decide)).1 rfl

/-- C5: the manifest reader skips blank and `#`-comment lines, and
from a line whose stripped form is an alphanumeric-led name block
followed by anything not extending it (an extras bracket, a version or
environment qualifier, or nothing) it extracts exactly that name; in
particular the example line yields `requests`. -/
theorem C5_manifest_line_extraction :
    (∀ line : String, pyStrip line.toList = [] → lineExtract line = none) ∧
    (∀ line : String, (pyStrip line.toList).head? = some '#' →
      lineExtract line = none) ∧
    (∀ (line : String) (c : Char) (name rest : List Char),
      pyStrip line.toList = c :: (name ++ rest) →
      c.isAlphanum = true →
      (∀ d ∈ name, isClassChar d = true) →
      endsAlnum name = true →
      headNotClass rest = true →
      lineExtract line = some (String.mk (c :: name))) ∧
    lineExtract "requests[security]>=2.0; python_version>=\"3.6\"" =
      some "requests" := by
  refine ⟨?_, ?_, ?_, by decide⟩
  · intro line hs
    unfold lineExtract
    rw [hs]
  · intro line hs
    unfold lineExtract
    cases hl : pyStrip line.toList with
    | nil => rfl
    | cons c cs =>
      rw [hl] at hs
      simp only [List.head?_cons, Option.some.injEq] at hs
      rw [hs]
      simp
  · intro line c name rest hs hc hname hends hrest
    unfold lineExtract
    rw [hs]
    dsimp only
    have hch : ¬ c = '#' := by
      intro hcc
      rw [hcc] at hc
      exact absurd hc (by decide)
    rw [if_neg hch]
    unfold reqGroup1
    dsimp only
    rw [if_pos hc, takeWhile_class_append name rest hname hrest,
      dropTrailNonAlnum_id name hends]
    rfl

/-- Witness for C5 at the example line. -/
theorem C5_manifest_line_extraction_witness :
    lineExtract "requests[security]>=2.0; python_version>=\"3.6\"" =
      some (String.mk ('r' :: "equests".toList)) :=
  C5_manifest_line_extraction.2.2.1
    "requests[security]>=2.0; python_version>=\"3.6\"" 'r' "equests".toList
    "[security]>=2.0; python_version>=\"3.6\"".toList
    (by decide) (by decide) (by decide) (by decide) (by decide)

/-- C10: a non-blank, non-comment line whose first stripped character
is not alphanumeric is silently skipped: it yields no package name and
contributes nothing — no Check Result and no output — to the rest of
the run. -/
theorem C10_nonname_line_skipped (line : String) (c : Char) (cs : List Char)
    (h1 : pyStrip line.toList = c :: cs) (h2 : c.isAlphanum = false)
    (h3 : ¬ c = '#') :
    lineExtract line = none ∧
    (∀ rest, extractPackages (line :: rest) = extractPackages rest) ∧
    (∀ (env : Env) (du : Bool) (rest : List String),
      runPackages env du (extractPackages (line :: rest)) =
        runPackages env du (extractPackages rest)) := by
  have hle : lineExtract line = none := by
    unfold lineExtract
    rw [h1]
    dsimp only
    rw [if_neg h3]
    unfold reqGroup1
    dsimp only
    rw [h2]
    rfl
  have hep : ∀ rest, extractPackages (line :: rest) = extractPackages rest := by
    intro rest
    unfold extractPackages
    rw [List.filterMap_cons, hle]
  exact ⟨hle, hep, fun env du rest => by rw [hep rest]⟩

/-- Witness for C10 at the line `-r other.txt`. -/
theorem C10_nonname_line_skipped_witness :
    lineExtract "-r other.txt" = none ∧
    extractPackages ["-r other.txt", "numpy==1.0"] =
      extractPackages ["numpy==1.0"] :=
  ⟨(C10_nonname_line_skipped "-r other.txt" '-' "r other.txt".toList
      (by decide) (by decide) (by decide)).1,
   (C10_nonname_line_skipped "-r other.txt" '-' "r other.txt".toList
      (by decide) (by decide) (by decide)).2.1 ["numpy==1.0"]⟩

/-- C7: the `updates_available` count printed by `main` equals the
number of Check Results with `update_available = true`, for every
environment and argument vector (in particular for either value of
`--update`). -/
theorem C7_summary_count (env : Env) (args : Args) (rs : List CheckResult)
    (n : Nat) (t : List Effect)
    (h : mainRun env args = (.ok (rs, n), t)) :
    n = (rs.filter (fun r => r.update_available)).length := by
  unfold mainRun at h
  cases hd : mainDispatch env args with
  | mk resE td =>
    rw [hd] at h
    cases resE with
    | error e => simp at h
    | ok results =>
      dsimp only at h
      rw [Prod.mk.injEq] at h
      obtain ⟨h1, -⟩ := h
      injection h1 with h1
      rw [Prod.mk.injEq] at h1
      obtain ⟨hrs, hn⟩ := h1
      subst hrs
      rw [← hn, updatesAvailable_eq]

/-- Witness for C7: a run over one not-installed package counts zero
updates. -/
theorem C7_summary_count_witness :
    (0 : Nat) = (([⟨"pkg", none, none, false, false⟩] :
      List CheckResult).filter (fun r => r.update_available)).length :=
  C7_summary_count envNotInstalled ⟨some "pkg", none, false⟩
    [⟨"pkg", none, none, false, false⟩] 0
    [Effect.print "Checking for updates...", Effect.pipShow "pkg",
     Effect.print "  pkg: not installed",
     Effect.print "\nAll packages are up to date."]
    (by rfl)

/-- C1: inside `check_package`, `update_available` is set exactly when
`Version(installed) < Version(latest)` under PEP-440 ordering; for
parseable strings the comparator returns that strict comparison, and
on the spec's examples `1.2.0 < 1.3.0` holds while `1.10.0 < 1.9.0`
does not (numeric, not lexicographic, segment comparison). -/
theorem C1_comparator_pep440 :
    (∀ (env : Env) (p : String) (du : Bool) (r : CheckResult)
        (t : List Effect) (inst lat : String),
        check_package env p du = (.ok r, t) →
        r.installed = some inst → r.latest = some (.str lat) →
        (r.update_available = true ↔ compareStep inst lat = .ok true)) ∧
    (∀ (installed latest : String) (vi vl : Version),
        Version.parse installed = some vi → Version.parse latest = some vl →
        compareStep installed latest = .ok (Version.lt vi vl)) ∧
    compareStep "1.2.0" "1.3.0" = .ok true ∧
    compareStep "1.10.0" "1.9.0" = .ok false := by
  refine ⟨?_, ?_, by rfl, by rfl⟩
  · intro env p du r t inst lat h hi hl
    unfold check_package at h
    split at h
    · injection h with h1 h2
      injection h1 with h1
      subst h1
      simp at hi
    · split at h
      · injection h with h1 h2
        simp at h1
      · injection h with h1 h2
        injection h1 with h1
        subst h1
        simp at hl
      · split at h
        · injection h with h1 h2
          simp at h1
        · split at h
          · injection h with h1 h2
            injection h1 with h1
            subst h1
            simp_all
          · injection h with h1 h2
            injection h1 with h1
            subst h1
            simp_all
        · injection h with h1 h2
          injection h1 with h1
          subst h1
          simp_all
      · split at h
        · injection h with h1 h2
          simp at h1
        · injection h with h1 h2
          simp at h1
  · intro installed latest vi vl h1 h2
    unfold compareStep versionOrErr
    rw [h1, h2]
    rfl

/-- Witness for C1 at the parsed forms of `1.2.0` and `1.3.0`. -/
theorem C1_comparator_pep440_witness :
    Version.parse "1.2.0" = some ⟨0, [1, 2, 0], none, none, none, none⟩ ∧
    compareStep "1.2.0" "1.3.0" =
      .ok (Version.lt ⟨0, [1, 2, 0], none, none, none, none⟩
        ⟨0, [1, 3, 0], none, none, none, none⟩) :=
  ⟨by decide,
   C1_comparator_pep440.2.1 "1.2.0" "1.3.0"
     ⟨0, [1, 2, 0], none, none, none, none⟩
     ⟨0, [1, 3, 0], none, none, none, none⟩ (by decide) (by decide)⟩

/-- C8: when both versions are present but at least one fails PEP-440
parsing, the comparator raises `InvalidVersion`, and the exception
propagates out of `check_package` instead of being absorbed. -/
theorem C8_unparseable_version_raises (installed latest : String)
    (h : Version.parse installed = none ∨ Version.parse latest = none) :
    compareStep installed latest = .error PyErr.invalidVersion ∧
    ∀ (env : Env) (p : String) (du : Bool),
      (get_installed_version env p).1 = some installed →
      (get_latest_version env p).1 = .ok (some (.str latest)) →
      (check_package env p du).1 = .error PyErr.invalidVersion := by
  have hcs : compareStep installed latest = .error PyErr.invalidVersion := by
    rcases h with h | h
    · unfold compareStep versionOrErr
      rw [h]
      rfl
    · unfold compareStep versionOrErr
      rw [h]
      cases hp : Version.parse installed <;> rfl
  refine ⟨hcs, ?_⟩
  intro env p du h1 h2
  unfold check_package
  rw [h1]
  dsimp only
  rw [h2]
  dsimp only
  rw [hcs]

/-- Witness for C8: installed version `abc` is unparseable and the
error escapes `check_package`. -/
theorem C8_unparseable_version_raises_witness :
    (check_package envBadVersion "pkg" false).1 =
      .error PyErr.invalidVersion :=
  (C8_unparseable_version_raises "abc" "1.0" (Or.inl (by decide))).2
    envBadVersion "pkg" false (by decide) (by rfl)

/-- C9: every successfully returned Check Result satisfies the
invariants: `updated` implies an update was available, `--update` was
requested and the upgrade subprocess succeeded; `update_available`
implies both versions are present. -/
theorem C9_result_invariant (env : Env) (p : String) (du : Bool)
    (r : CheckResult) (t : List Effect)
    (h : check_package env p du = (.ok r, t)) :
    (r.updated = true → r.update_available = true ∧ du = true ∧
      env.pipInstallOk p = true) ∧
    (r.update_available = true → r.installed.isSome = true ∧
      r.latest.isSome = true) := by
  unfold check_package at h
  split at h
  · injection h with h1 h2
    injection h1 with h1
    subst h1
    simp
  · split at h
    · injection h with h1 h2
      simp at h1
    · injection h with h1 h2
      injection h1 with h1
      subst h1
      simp
    · split at h
      · injection h with h1 h2
        simp at h1
      · split at h
        · injection h with h1 h2
          injection h1 with h1
          subst h1
          simp_all [update_package]
        · injection h with h1 h2
          injection h1 with h1
          subst h1
          simp_all
      · injection h with h1 h2
        injection h1 with h1
        subst h1
        simp
    · split at h
      · injection h with h1 h2
        simp at h1
      · injection h with h1 h2
        simp at h1

/-- Witness for C9 at a not-installed result. -/
theorem C9_result_invariant_witness :
    ((⟨"pkg", none, none, false, false⟩ : CheckResult).updated = true →
      (⟨"pkg", none, none, false, false⟩ : CheckResult).update_available =
        true ∧ (true : Bool) = true ∧
        envNotInstalled.pipInstallOk "pkg" = true) ∧
    ((⟨"pkg", none, none, false, false⟩ : CheckResult).update_available =
        true →
      (⟨"pkg", none, none, false, false⟩ :
        CheckResult).installed.isSome = true ∧
      (⟨"pkg", none, none, false, false⟩ :
        CheckResult).latest.isSome = true) :=
  C9_result_invariant envNotInstalled "pkg" true
    ⟨"pkg", none, none, false, false⟩
    [Effect.pipShow "pkg", Effect.print "  pkg: not installed"] (by rfl)
